import Mathlib

/-!
Verification of the `nitro-frontify-deployer` pipeline (`src/index.js`).

The deployer validates a tree of UI components, turns each component's raw
`pattern.json` data plus its example templates into a "transfer data"
descriptor, builds `pattern.json` + rendered HTML artifacts into a target
directory, and syncs the result to the Frontify registry.

Shallow embedding conventions:
* File paths are modelled as lists of path segments (`Path := List String`);
  an absolute path is the list of its segments from the filesystem root.
  Rendering a path joins the segments with `/` (the separator the code
  normalizes to).  Node's `path.basename`, `path.dirname`, `path.relative`,
  `path.join` and `path.resolve` become the segment operations below.
* JavaScript objects holding the raw/derived component data are modelled as
  insertion-ordered association lists (`List (String × α)`); property
  assignment updates in place or appends, exactly like JS object assignment.
* Promises are modelled by `Except String` values (the `String` is the
  rejection's `error.message`) plus, for the build stage, explicit traces of
  filesystem operations; the nondeterministic interleaving that `Promise.all`
  allows is modelled by the `Interleaves` relation.
* External collaborators (component resolver, schema validator, pretty
  printer, Frontify registry) are parameters of the pipeline (`Env`),
  mirroring the spec's external-interface boundary.
-/

namespace NitroFrontifyDeployer

/-- A file path, as the list of its segments (rendered joined by `/`). -/
abbrev Path := List String

/-- Render a path the way the deployer's strings show it: segments joined
by forward slashes. -/
def renderPath (p : Path) : String :=
  String.intercalate "/" p

/-- Node `path.dirname` on a segment list: drop the last segment. -/
def dirname (p : Path) : Path :=
  p.dropLast

/-- Node `path.basename` on a segment list: the last segment. -/
def basenameP (p : Path) : String :=
  p.getLastD ""

/-- Node `path.relative from to` on segment lists: strip the common
leading segments, then one `..` per remaining `from` segment followed by
the remaining `to` segments. -/
def relativeSegs : Path → Path → Path
  | [], t => t
  | a :: f, [] => (a :: f).map fun _ => ".."
  | a :: f, b :: t =>
    if a = b then relativeSegs f t
    else ((a :: f).map fun _ => "..") ++ b :: t

/-- Node `path.resolve base rel` on segment lists: append `rel` to `base`,
consuming `..` and `.` segments. -/
def resolveSegs (base : Path) (rel : Path) : Path :=
  rel.foldl
    (fun acc s =>
      if s = ".." then acc.dropLast
      else if s = "." then acc
      else acc ++ [s])
    base

/-- Split a character list at every `/` (the segment decomposition of a
`/`-separated path string, i.e. `String.splitOn "/"` on the character
level). -/
def splitSlashAux : List Char → List Char → List String
  | [], acc => [String.mk acc.reverse]
  | c :: cs, acc =>
    if c = '/' then String.mk acc.reverse :: splitSlashAux cs []
    else splitSlashAux cs (c :: acc)

/-- The segments of a `/`-separated path string. -/
def splitSlash (s : String) : List String :=
  splitSlashAux s.data []

/-- Resolve a `/`-separated relative path string against a base path
(Node `path.resolve(base, str)` for the strings the deployer produces). -/
def resolveStr (base : Path) (s : String) : Path :=
  resolveSegs base (splitSlash s)

/-- The `.replace(/\\/g, '/')` normalization: turn every backslash into a
forward slash. -/
def normalizeSlashes (s : String) : String :=
  String.mk (s.data.map fun c => if c = '\\' then '/' else c)

/-- Core of `basename.replace(/\..+$/, '')`: cut the character list at the
first dot that has at least one character after it (the leftmost match of
the regex `\..+$`). -/
def cutFromDot : List Char → List Char
  | [] => []
  | c :: cs => if c = '.' ∧ cs ≠ [] then [] else c :: cutFromDot cs

/-- The example stem: `path.basename(filepath).replace(/\..+$/, '')`
applied to an already-extracted basename. -/
def stem (s : String) : String :=
  String.mk (cutFromDot s.data)

/-- First-match lookup in an insertion-ordered association list
(JS property read `obj[k]`, `none` = `undefined`). -/
def getAssoc {α : Type} : List (String × α) → String → Option α
  | [], _ => none
  | (k', v) :: rest, k => if k' = k then some v else getAssoc rest k

/-- JS property assignment `obj[k] = v`: update the existing entry in
place, or append a new one. -/
def setAssoc {α : Type} : List (String × α) → String → α → List (String × α)
  | [], k, v => [(k, v)]
  | (k', v') :: rest, k, v =>
    if k' = k then (k, v) :: rest else (k', v') :: setAssoc rest k v

/-- JS truthiness of an optional string property: `undefined` and the
empty string are falsy. -/
def truthyOpt : Option String → Bool
  | none => false
  | some s => if s = "" then false else true

/-- A nitro-component-resolver example instance: the template source path
plus the `main` flag (current schema) and the `hidden` flag (legacy
schema). -/
structure Example where
  filepath : Path
  main : Bool
  hidden : Bool
  deriving DecidableEq, Repr

/-- A nitro-component-resolver component instance: its directory, the
`pattern.json` metadata file path, the resolver-derived `name`, and the
raw declared data (an ordered property list). -/
structure Component where
  directory : Path
  metaFile : Path
  name : String
  data : List (String × String)
  deriving DecidableEq, Repr

/-- A frontify variation: display name plus the `assets.html` path list. -/
structure Variation where
  name : String
  htmlAssets : List String
  deriving DecidableEq, Repr

/-- The transfer data built by `_generateComponentTransferData`: the scalar
properties (an ordered JS object) and the `variations` object mapping
the example's component-relative path to its `Variation`. -/
structure TransferData where
  props : List (String × String)
  variations : List (String × Variation)
  deriving DecidableEq, Repr

/-- The result of running the injected template compiler: either markup
directly, or a render function (itself fallible) to be invoked with an
empty context. -/
inductive Compiled where
  | markup (m : String)
  | renderFn (f : Except String String)

/-- The deployer configuration (constructor-validated `this.options`). -/
structure Options where
  rootDirectory : Path
  targetDir : Path
  mapping : List (String × String)
  compiler : String → Path → Except String Compiled
  assetFolder : String
  assetFilter : List String
  componentNameProcessor : String → String → String → Path → String
  /-- `frontifyOptions.access_token` after the env-var fallback; `""` models
  a missing token (JS falsy). -/
  frontifyAccessToken : String
  /-- Shared CSS files (legacy `config.cssFiles`). -/
  cssFiles : List String
  /-- Shared JS files (legacy `config.jsFiles`). -/
  jsFiles : List String

/-- The external collaborators: component resolver, filesystem contents,
schema validator, pretty printer and the Frontify registry client. -/
structure Env where
  components : List Component
  examplesOf : Path → List Example
  fileContents : Path → String
  schemaValidate : Component → Except String Unit
  prettyPrint : String → String
  registryAssets : String → List String → List String
  registryPatterns : Path → List String → List String

/-- Modelled from the spec: `src/schema.json` is required by `index.js` but
is not among the sources; per the spec's TransferData shape
(`name, type, stability?, id?, variations` - where `variations` is
constructed, never copied) the schema's declared copyable properties are
`name`, `type`, `stability` and `id`. -/
def schemaProperties : List String :=
  ["name", "type", "stability", "id"]

/-- The `frontifyProperties.forEach` copy loop of
`_generateComponentTransferData`: copy every schema-declared property whose
value is defined in the raw data. -/
def copyProps (props : List String) (src : List (String × String)) :
    List (String × String) :=
  props.foldl
    (fun acc p =>
      match getAssoc src p with
      | some v => setAssoc acc p v
      | none => acc)
    []

/-- `_generateVariation(componentName, componentPath, example)` of
`src/index.js`: variation display name `"<componentName> -- <stem>"` and a
single html asset at `relative(rootDirectory, componentPath)/<stem>.html`
with separators normalized to `/`. -/
def generateVariation (opts : Options) (componentName : String)
    (componentPath : Path) (e : Example) : Variation :=
  let name := stem (basenameP e.filepath)
  let examplePath := relativeSegs opts.rootDirectory componentPath ++ [name ++ ".html"]
  { name := componentName ++ " -- " ++ name
    htmlAssets := [normalizeSlashes (renderPath examplePath)] }

/-- `const componentPath = path.dirname(component.metaFile)`. -/
def componentPathOf (c : Component) : Path :=
  dirname c.metaFile

/-- `const componentName = path.basename(componentPath)` (the component's
folder name). -/
def componentNameOf (c : Component) : String :=
  basenameP (componentPathOf c)

/-- `const componenType = path.basename(path.dirname(componentPath))` (the
folder two levels above the metadata file; the source's spelling). -/
def componenTypeOf (c : Component) : String :=
  basenameP (dirname (componentPathOf c))

/-- The copy stage of `_generateComponentTransferData`:
`resultJson` right after the `frontifyProperties.forEach` loop. -/
def copiedProps (c : Component) : List (String × String) :=
  copyProps schemaProperties c.data

/-- `resultJson` after `if (!resultJson.name) resultJson.name = componentName`. -/
def defaultedNameProps (c : Component) : List (String × String) :=
  if truthyOpt (getAssoc (copiedProps c) "name") then copiedProps c
  else setAssoc (copiedProps c) "name" (componentNameOf c)

/-- The post-processed component name:
`this.options.componentNameProcessor(resultJson.name, componentName, componenType, componentPath)`. -/
def resolvedNameOf (opts : Options) (c : Component) : String :=
  opts.componentNameProcessor ((getAssoc (defaultedNameProps c) "name").getD "")
    (componentNameOf c) (componenTypeOf c) (componentPathOf c)

/-- `resultJson` after `resultJson.name = this.options.componentNameProcessor(...)`. -/
def namedProps (opts : Options) (c : Component) : List (String × String) :=
  setAssoc (defaultedNameProps c) "name" (resolvedNameOf opts c)

/-- `resultJson`'s scalar properties after
`if (!resultJson.type) resultJson.type = this.options.mapping[componenType]`
(an absent mapping entry assigns `undefined`, which the serialized object
does not contain). -/
def genProps (opts : Options) (c : Component) : List (String × String) :=
  if truthyOpt (getAssoc (namedProps opts c) "type") then namedProps opts c
  else
    match getAssoc opts.mapping (componenTypeOf c) with
    | some t => setAssoc (namedProps opts c) "type" t
    | none => namedProps opts c

/-- The variations key:
`path.relative(component.directory, example.filepath).replace(/\\/g, '/')`. -/
def variationKey (c : Component) (e : Example) : String :=
  normalizeSlashes (renderPath (relativeSegs c.directory e.filepath))

/-- The `resultJson.variations` object: one entry per `main` example, in
enumeration order, keyed by the example's component-relative path. -/
def genVariations (opts : Options) (examplesOf : Path → List Example)
    (c : Component) : List (String × Variation) :=
  ((examplesOf c.directory).filter fun e => e.main).foldl
    (fun acc e =>
      setAssoc acc (variationKey c e)
        (generateVariation opts (resolvedNameOf opts c) (componentPathOf c) e))
    []

/-- `_generateComponentTransferData(component)` of `src/index.js`: copy the
schema-declared properties, default `name` to the component folder name,
pipe it through the name processor, default `type` through the mapping,
then key one variation per `main` example by its component-relative path. -/
def generateComponentTransferData (opts : Options)
    (examplesOf : Path → List Example) (c : Component) : TransferData :=
  { props := genProps opts c
    variations := genVariations opts examplesOf c }

/-- The fixed empty-catalog error message of `validateComponents()`. -/
def emptyCatalogMsg : String :=
  "Component validation failed - no components found"

/-- The unmapped-folder error message of `_validateComponent`:
`Folder name "<folder>" is not in the mapping.` -/
def folderErrorMsg (folder : String) : String :=
  "Folder name \"" ++ folder ++ "\" is not in the mapping."

/-- `const typeFolderName = path.basename(path.dirname(path.dirname(component.metaFile)))`
of `_validateComponent` (e.g. `atoms` or `molecules`). -/
def typeFolderNameOf (c : Component) : String :=
  basenameP (dirname (dirname c.metaFile))

/-- `_validateComponent(component)` of `src/index.js`: run the injected
schema validator (which rejects by throwing), then require a truthy mapping
entry for the folder two levels above the metadata file. -/
def validateComponent (opts : Options) (sv : Component → Except String Unit)
    (c : Component) : Except String Bool :=
  match sv c with
  | Except.error e => Except.error e
  | Except.ok _ =>
    if truthyOpt (getAssoc opts.mapping (typeFolderNameOf c)) then
      Except.ok true
    else
      Except.error (folderErrorMsg (typeFolderNameOf c))

/-- The `_.values(components).some((component) => !this._validateComponent(component))`
iteration: left to right, stopping at the first truthy predicate result;
`_validateComponent` either throws or returns `true`. -/
def someInvalid (opts : Options) (sv : Component → Except String Unit) :
    List Component → Except String Bool
  | [] => Except.ok false
  | c :: rest =>
    match validateComponent opts sv c with
    | Except.error e => Except.error e
    | Except.ok v => if !v then Except.ok true else someInvalid opts sv rest

/-- `validateComponents()` of `src/index.js`: reject with the fixed message
on an empty catalog, otherwise validate every component in order and return
the negated `some`. -/
def validateComponents (opts : Options) (sv : Component → Except String Unit)
    (components : List Component) : Except String Bool :=
  if components.length = 0 then Except.error emptyCatalogMsg
  else (someInvalid opts sv components).map fun b => !b

/-- The compile-then-invoke step inside `_compileExample`'s `try` block:
`compiled = this.options.compiler(src, path.resolve(templateSrc))`, then
`compiled = compiled({})` when the compiler returned a function. -/
def runCompile (opts : Options) (text : String) (templateSrc : Path) :
    Except String String :=
  match opts.compiler text templateSrc with
  | Except.error e => Except.error e
  | Except.ok (Compiled.markup m) => Except.ok m
  | Except.ok (Compiled.renderFn f) => f

/-- The value side of `_compileExample(templateSrc, templateDest)` of
`src/index.js`: on success the pretty-printed markup that gets written, on
a compile/render error that error re-raised with its message prefixed by
the quoted source path (the `catch` block). -/
def compileExampleResult (opts : Options) (env : Env) (templateSrc : Path) :
    Except String String :=
  match runCompile opts (env.fileContents templateSrc) templateSrc with
  | Except.ok m => Except.ok (env.prettyPrint m)
  | Except.error e =>
      Except.error ("\"" ++ renderPath templateSrc ++ "\" " ++ e)

/-- One filesystem operation issued by the build stage. -/
inductive FsOp where
  | mkdir (p : Path)
  | readFile (p : Path)
  | writeFile (p : Path) (content : String)
  | copyFile (src : String) (dest : Path)
  deriving DecidableEq, Repr

/-- The filesystem trace of `_compileExample`: create the destination's
directory, read the template, and (when compilation succeeds) write the
pretty-printed output; on a compile error the trace stops there and the
error propagates. -/
def compileExampleTrace (opts : Options) (env : Env)
    (templateSrc templateDest : Path) : List FsOp :=
  [FsOp.mkdir (dirname templateDest), FsOp.readFile templateSrc] ++
    match compileExampleResult opts env templateSrc with
    | Except.ok out => [FsOp.writeFile templateDest out]
    | Except.error _ => []

/-- `path.resolve(this.options.targetDir, path.relative(rootDirectory, component.directory))`,
the per-component output directory of `_buildComponent`. -/
def componentTargetDir (opts : Options) (c : Component) : Path :=
  resolveSegs opts.targetDir (relativeSegs opts.rootDirectory c.directory)

/-- A placeholder executable stand-in for `JSON.stringify(v, null, 2)` on a
variation; no claim inspects the exact JSON text. -/
def serializeVariation (v : Variation) : String :=
  "name=" ++ v.name ++ ";html=" ++ String.intercalate "," v.htmlAssets

/-- A placeholder executable stand-in for `JSON.stringify(transferData, null, 2)`;
it lists the scalar properties and the variations in order. -/
def serializeTransferData (td : TransferData) : String :=
  String.intercalate ";" (td.props.map fun p => p.1 ++ "=" ++ p.2) ++
    ";variations=" ++
    String.intercalate "|" (td.variations.map fun kv => kv.1 ++ ":" ++ serializeVariation kv.2)

/-- The `pattern.json` stage of `_buildComponent`: create the component's
target directory, then write the serialized transfer data to
`<componentTargetDir>/pattern.json`. -/
def buildPatternOps (opts : Options) (c : Component) (td : TransferData) :
    List FsOp :=
  let ctd := componentTargetDir opts c
  [FsOp.mkdir ctd,
   FsOp.writeFile (ctd ++ ["pattern.json"]) (serializeTransferData td)]

/-- The trace of one variation's build inside `_buildComponent`: the
template source is the variation key resolved against the component
directory, the destination is the first html asset resolved against the
target directory. -/
def variationTraceOf (opts : Options) (env : Env) (c : Component)
    (kv : String × Variation) : List FsOp :=
  compileExampleTrace opts env
    (resolveStr c.directory kv.1)
    (resolveStr opts.targetDir (kv.2.htmlAssets.headD ""))

/-- The per-variation traces of one component, in `Object.keys` order. -/
def variationTraces (opts : Options) (env : Env) (c : Component) :
    List (List FsOp) :=
  (generateComponentTransferData opts env.examplesOf c).variations.map
    (variationTraceOf opts env c)

/-- `t` is one sequential interleaving of the operation lists `ls`
(the behaviors `Promise.all` admits for concurrently issued work). -/
inductive Interleaves : List (List FsOp) → List FsOp → Prop where
  | done (ls : List (List FsOp)) (h : ∀ l ∈ ls, l = []) : Interleaves ls []
  | step (ls : List (List FsOp)) (i : Nat) (op : FsOp) (tl : List FsOp)
      (rest : List FsOp) (hget : ls.get? i = some (op :: tl))
      (hrest : Interleaves (ls.set i tl) rest) :
      Interleaves ls (op :: rest)

/-- A possible full trace of `_buildComponent(component)`: the sequential
`pattern.json` stage followed by some interleaving of the variation
builds started by `Promise.all`. -/
def BuildComponentTrace (opts : Options) (env : Env) (c : Component)
    (t : List FsOp) : Prop :=
  ∃ u, Interleaves (variationTraces opts env c) u ∧
    t = buildPatternOps opts c (generateComponentTransferData opts env.examplesOf c) ++ u

/-- The canonical (variation-order sequential) trace of
`_buildComponent(component)`. -/
def buildComponentTrace (opts : Options) (env : Env) (c : Component) :
    List FsOp :=
  buildPatternOps opts c (generateComponentTransferData opts env.examplesOf c) ++
    (variationTraces opts env c).flatten

/-- The canonical trace of `buildComponents()` of `src/index.js`: every
catalog component's build, nothing else. -/
def buildComponentsTrace (opts : Options) (env : Env)
    (components : List Component) : List FsOp :=
  (components.map (buildComponentTrace opts env)).flatten

/-- The success/failure value of `_buildComponent`: it fails exactly when
some variation's compilation fails (the first rejection propagates). -/
def buildComponentResult (opts : Options) (env : Env) (c : Component) :
    Except String Unit :=
  (((generateComponentTransferData opts env.examplesOf c).variations).mapM
      fun kv => (compileExampleResult opts env (resolveStr c.directory kv.1)).map
        fun _ => ()).map
    fun _ => ()

/-- The success/failure value of `buildComponents()`. -/
def buildComponentsResult (opts : Options) (env : Env) : Except String Unit :=
  ((env.components.mapM (buildComponentResult opts env)).map fun _ => ())

/-- `_syncAssets()` of `src/index.js`: require a truthy access token,
short-circuit to `[]` when no asset folder is configured, otherwise call
the registry's `syncAssets` with the asset folder and filter. -/
def syncAssetsFn (opts : Options)
    (registryAssets : String → List String → List String) :
    Except String (List String) :=
  if opts.frontifyAccessToken = "" then
    Except.error "Please specify a frontify token"
  else if opts.assetFolder = "" then
    Except.ok []
  else
    Except.ok (registryAssets opts.assetFolder opts.assetFilter)

/-- `_syncComponents()` of `src/index.js`: require a truthy access token,
then call the registry's `syncPatterns` on the target directory with the
`*/*/pattern.json` glob. -/
def syncComponentsFn (opts : Options)
    (registryPatterns : Path → List String → List String) :
    Except String (List String) :=
  if opts.frontifyAccessToken = "" then
    Except.error "Please specify a frontify token"
  else
    Except.ok (registryPatterns opts.targetDir ["*/*/pattern.json"])

/-! ### Legacy build (the earlier `index.js` revision among the sources)

The repository also contains an earlier revision of the module (the first
unnamed source file) whose `_buildComponents` additionally materializes the
`core-assets` pseudo-component via `_buildBaseComponent`; the definitions
below embed that revision's build stage. -/

/-- `path.basename` on a raw configured file path string (the legacy
`cssFiles`/`jsFiles` entries are plain strings). -/
def stringBasename (s : String) : String :=
  (s.splitOn "/").getLastD s

/-- The legacy `_generateVariation(component, example)`: display name
`"<component.name> <stem>"` (resolver name, single space separator) and the
html asset relative to the root directory. -/
def legacyGenerateVariation (opts : Options) (c : Component) (e : Example) :
    Variation :=
  let name := stem (basenameP e.filepath)
  let examplePath := relativeSegs opts.rootDirectory c.directory ++ [name ++ ".html"]
  { name := c.name ++ " " ++ name
    htmlAssets := [normalizeSlashes (renderPath examplePath)] }

/-- The legacy `_generateComponentTransferData(component)`: like the
current one but without the name processor, and filtering examples by
`!example.hidden` instead of `example.main`. -/
def legacyGenerateComponentTransferData (opts : Options)
    (examplesOf : Path → List Example) (c : Component) : TransferData :=
  let props0 := copyProps schemaProperties c.data
  let componentPath := dirname c.metaFile
  let componentName := basenameP componentPath
  let componenType := basenameP (dirname componentPath)
  let props1 :=
    if truthyOpt (getAssoc props0 "name") then props0
    else setAssoc props0 "name" componentName
  let props2 :=
    if truthyOpt (getAssoc props1 "type") then props1
    else
      match getAssoc opts.mapping componenType with
      | some t => setAssoc props1 "type" t
      | none => props1
  let variations :=
    ((examplesOf c.directory).filter fun e => !e.hidden).foldl
      (fun acc e =>
        setAssoc acc
          (normalizeSlashes (renderPath (relativeSegs c.directory e.filepath)))
          (legacyGenerateVariation opts c e))
      []
  { props := props2, variations := variations }

/-- The legacy per-variation build trace (the legacy `_compileExample` has
no error-prefixing `catch`, but issues the same filesystem operations; the
legacy code hands the compiler only the source text - the path argument of
our uniform compiler model is ignored by legacy-era compilers). -/
def legacyVariationTraceOf (opts : Options) (env : Env) (c : Component)
    (kv : String × Variation) : List FsOp :=
  let templateSrc := resolveStr c.directory kv.1
  let templateDest := resolveStr opts.targetDir (kv.2.htmlAssets.headD "")
  [FsOp.mkdir (dirname templateDest), FsOp.readFile templateSrc] ++
    match runCompile opts (env.fileContents templateSrc) templateSrc with
    | Except.ok m => [FsOp.writeFile templateDest (env.prettyPrint m)]
    | Except.error _ => []

/-- The canonical trace of the legacy `_buildComponent(component)`. -/
def legacyBuildComponentTrace (opts : Options) (env : Env) (c : Component) :
    List FsOp :=
  let td := legacyGenerateComponentTransferData opts env.examplesOf c
  buildPatternOps opts c td ++
    (td.variations.map (legacyVariationTraceOf opts env c)).flatten

/-- The `core-assets` pseudo-component data built by the legacy
`_buildBaseComponent`: fixed name, type `atom`, stability `beta`, no html,
and the staged css/js asset paths. -/
structure CoreComponent where
  name : String
  type : String
  stability : String
  htmlAssets : List String
  cssAssets : List String
  jsAssets : List String
  deriving DecidableEq, Repr

/-- `path.resolve(this.options.targetDir, 'core', 'assets')`. -/
def coreComponentDirectory (opts : Options) : Path :=
  resolveSegs opts.targetDir ["core", "assets"]

/-- The `coreComponent` object of the legacy `_buildBaseComponent`. -/
def legacyCoreComponent (opts : Options) : CoreComponent :=
  let dir := coreComponentDirectory opts
  { name := "core-assets"
    type := "atom"
    stability := "beta"
    htmlAssets := []
    cssAssets := opts.cssFiles.map fun f => renderPath (dir ++ ["css", stringBasename f])
    jsAssets := opts.jsFiles.map fun f => renderPath (dir ++ ["js", stringBasename f]) }

/-- A placeholder executable stand-in for
`JSON.stringify(coreComponent, null, 2)`. -/
def serializeCoreComponent (cc : CoreComponent) : String :=
  "name=" ++ cc.name ++ ";type=" ++ cc.type ++ ";stability=" ++ cc.stability ++
    ";html=" ++ String.intercalate "," cc.htmlAssets ++
    ";css=" ++ String.intercalate "," cc.cssAssets ++
    ";js=" ++ String.intercalate "," cc.jsAssets

/-- The trace of the legacy `_buildBaseComponent()`: create and populate
`<targetDir>/core/assets/css` and `.../js` from the configured shared
files, then write the pseudo-component's `pattern.json`. -/
def legacyBuildBaseComponentTrace (opts : Options) : List FsOp :=
  let dir := coreComponentDirectory opts
  [FsOp.mkdir (dir ++ ["css"])] ++
    (opts.cssFiles.map fun f => FsOp.copyFile f (dir ++ ["css", stringBasename f])) ++
    [FsOp.mkdir (dir ++ ["js"])] ++
    (opts.jsFiles.map fun f => FsOp.copyFile f (dir ++ ["js", stringBasename f])) ++
    [FsOp.writeFile (dir ++ ["pattern.json"])
      (serializeCoreComponent (legacyCoreComponent opts))]

/-- The canonical trace of the legacy `_buildComponents()`: every catalog
component's build, then `_buildBaseComponent()`. -/
def legacyBuildComponentsTrace (opts : Options) (env : Env) : List FsOp :=
  (env.components.map (legacyBuildComponentTrace opts env)).flatten ++
    legacyBuildBaseComponentTrace opts

/-- The value `deploy()` resolves with. -/
structure DeployResult where
  assets : List String
  components : List String
  deriving DecidableEq, Repr

/-- `deploy()` of `src/index.js`: validate, build, then await the asset
sync and the pattern sync together and package both results. -/
def deploy (opts : Options) (env : Env) : Except String DeployResult := do
  let _ ← validateComponents opts env.schemaValidate env.components
  let _ ← buildComponentsResult opts env
  let a ← syncAssetsFn opts env.registryAssets
  let cs ← syncComponentsFn opts env.registryPatterns
  pure { assets := a, components := cs }

/-- `op` touches the legacy `core-assets` package under `target`: it writes
`<target>/core/assets/pattern.json`, creates `<target>/core/assets/css` or
`<target>/core/assets/js`, or copies a file below `<target>/core/assets`. -/
def isCoreAssetsOp (target : Path) (op : FsOp) : Bool :=
  match op with
  | FsOp.writeFile p _ => p = target ++ ["core", "assets", "pattern.json"]
  | FsOp.mkdir p =>
      p = target ++ ["core", "assets", "css"] ∨ p = target ++ ["core", "assets", "js"]
  | FsOp.copyFile _ d => (target ++ ["core", "assets"]).isPrefixOf d
  | FsOp.readFile _ => false

/-! ### Concrete fixtures (mirroring the repository's test fixtures) -/

/-- A concrete configuration: root `root`, target `tmp`, mapping
`atoms -> atom`, identity compiler and name processor, no asset folder,
shared css/js files configured. -/
def exOpts : Options :=
  { rootDirectory := ["root"]
    targetDir := ["tmp"]
    mapping := [("atoms", "atom")]
    compiler := fun s _ => Except.ok (Compiled.markup s)
    assetFolder := ""
    assetFilter := ["**/*.*"]
    componentNameProcessor := fun n _ _ _ => n
    frontifyAccessToken := "tok"
    cssFiles := ["dist/a.css"]
    jsFiles := ["dist/b.js"] }

/-- `exOpts` with an empty folder-type mapping. -/
def exOptsNoMapping : Options :=
  { exOpts with mapping := [] }

/-- `exOpts` with a compiler that always throws `Compile error`. -/
def exOptsFailCompiler : Options :=
  { exOpts with compiler := fun _ _ => Except.error "Compile error" }

/-- The `atoms/button` component of the test fixtures. -/
def exButton : Component :=
  { directory := ["root", "atoms", "button"]
    metaFile := ["root", "atoms", "button", "pattern.json"]
    name := "button"
    data := [("stability", "stable")] }

/-- `atoms/button` with an explicitly declared name and type. -/
def exButtonDeclared : Component :=
  { exButton with data := [("name", "btn"), ("type", "molecule"), ("stability", "stable")] }

/-- `atoms/button` with an extra property not declared in the schema. -/
def exButtonExtra : Component :=
  { exButton with data := [("stability", "stable"), ("foo", "bar")] }

/-- The example resolver of the fixtures: `atoms/button` has one `main`
example `_example/example.hbs`. -/
def exExamplesOf : Path → List Example := fun d =>
  if d = ["root", "atoms", "button"] then
    [{ filepath := ["root", "atoms", "button", "_example", "example.hbs"]
       main := true
       hidden := false }]
  else []

/-- The concrete collaborator environment for the fixtures: every
component passes schema validation, the pretty printer is the identity,
and the registry returns fixed lists. -/
def exEnv : Env :=
  { components := [exButton]
    examplesOf := exExamplesOf
    fileContents := fun _ => "Hello World"
    schemaValidate := fun _ => Except.ok ()
    prettyPrint := id
    registryAssets := fun _ _ => ["asset1"]
    registryPatterns := fun _ _ => ["buttonPattern"] }

/-! ### Association-list lemmas -/

theorem getAssoc_setAssoc_self {α : Type} (l : List (String × α)) (k : String) (v : α) :
    getAssoc (setAssoc l k v) k = some v := by
  induction l with
  | nil => simp [setAssoc, getAssoc]
  | cons p rest ih =>
    obtain ⟨k', v'⟩ := p
    by_cases h : k' = k
    · simp [setAssoc, h, getAssoc]
    · simp [setAssoc, h, getAssoc, ih]

theorem getAssoc_setAssoc_ne {α : Type} (l : List (String × α)) {k' k : String}
    (v : α) (h : k' ≠ k) :
    getAssoc (setAssoc l k' v) k = getAssoc l k := by
  induction l with
  | nil => simp [setAssoc, getAssoc, h]
  | cons p rest ih =>
    obtain ⟨k'', v''⟩ := p
    by_cases h2 : k'' = k'
    · simp [setAssoc, h2, getAssoc, h]
    · simp only [setAssoc, if_neg h2, getAssoc]
      by_cases h3 : k'' = k <;> simp [h3, ih]

theorem mem_setAssoc {α : Type} {l : List (String × α)} {k : String} {v : α}
    {x : String × α} (hx : x ∈ setAssoc l k v) : x ∈ l ∨ x = (k, v) := by
  induction l with
  | nil => simpa [setAssoc] using hx
  | cons p rest ih =>
    obtain ⟨k', v'⟩ := p
    by_cases h : k' = k
    · simp only [setAssoc, if_pos h] at hx
      rcases List.mem_cons.mp hx with h1 | h1
      · right; exact h1
      · left; exact List.mem_cons_of_mem _ h1
    · simp only [setAssoc, if_neg h] at hx
      rcases List.mem_cons.mp hx with h1 | h1
      · left; exact h1 ▸ List.mem_cons_self _ _
      · rcases ih h1 with h2 | h2
        · left; exact List.mem_cons_of_mem _ h2
        · right; exact h2

theorem setAssoc_of_not_mem {α : Type} {l : List (String × α)} {k : String}
    (v : α) (h : k ∉ l.map Prod.fst) : setAssoc l k v = l ++ [(k, v)] := by
  induction l with
  | nil => simp [setAssoc]
  | cons p rest ih =>
    obtain ⟨k', v'⟩ := p
    simp only [List.map_cons, List.mem_cons] at h
    push_neg at h
    simp [setAssoc, Ne.symm h.1, ih h.2]

theorem foldl_setAssoc_eq_map {γ β : Type} (K : γ → String) (V : γ → β) :
    ∀ (l : List γ) (acc : List (String × β)),
      (acc.map Prod.fst ++ l.map K).Nodup →
      l.foldl (fun a e => setAssoc a (K e) (V e)) acc
        = acc ++ l.map fun e => (K e, V e) := by
  intro l
  induction l with
  | nil => intro acc _; simp
  | cons e rest ih =>
    intro acc h
    have hKe : K e ∉ acc.map Prod.fst := by
      rcases List.nodup_append.mp h with ⟨_, _, hdisj⟩
      exact fun hmem => hdisj hmem (by simp)
    have h' : ((acc ++ [(K e, V e)]).map Prod.fst ++ rest.map K).Nodup := by
      simpa [List.append_assoc] using h
    rw [List.foldl_cons, setAssoc_of_not_mem (V e) hKe, ih _ h']
    simp

theorem mem_foldl_setAssoc {γ β : Type} (K : γ → String) (V : γ → β) :
    ∀ (l : List γ) (acc : List (String × β)) (x : String × β),
      x ∈ l.foldl (fun a e => setAssoc a (K e) (V e)) acc →
      x ∈ acc ∨ ∃ e ∈ l, x = (K e, V e) := by
  intro l
  induction l with
  | nil => intro acc x hx; left; simpa using hx
  | cons e rest ih =>
    intro acc x hx
    rw [List.foldl_cons] at hx
    rcases ih _ x hx with h | ⟨e', he', hxe⟩
    · rcases mem_setAssoc h with h' | h'
      · left; exact h'
      · right; exact ⟨e, List.mem_cons_self _ _, h'⟩
    · right; exact ⟨e', List.mem_cons_of_mem _ he', hxe⟩

theorem getAssoc_foldl_copy (src : List (String × String)) :
    ∀ (l : List String) (acc : List (String × String)) (k : String),
      getAssoc
        (l.foldl
          (fun a p =>
            match getAssoc src p with
            | some v => setAssoc a p v
            | none => a)
          acc) k
        = if k ∈ l ∧ (getAssoc src k).isSome then getAssoc src k
          else getAssoc acc k := by
  intro l
  induction l with
  | nil => intro acc k; simp
  | cons p rest ih =>
    intro acc k
    rw [List.foldl_cons]
    by_cases hpk : p = k
    · subst hpk
      cases hsrc : getAssoc src p with
      | none => simp [hsrc, ih]
      | some v =>
        by_cases hmem : p ∈ rest <;>
          simp [hsrc, ih, hmem, getAssoc_setAssoc_self]
    · cases hsrc : getAssoc src p with
      | none =>
        simp only [hsrc, ih]
        by_cases hmem : k ∈ rest <;> simp [hmem, hpk, Ne.symm hpk]
      | some v =>
        simp only [hsrc, ih]
        by_cases hmem : k ∈ rest <;>
          simp [hmem, hpk, Ne.symm hpk, getAssoc_setAssoc_ne _ _ hpk]

theorem getAssoc_copyProps (props : List String) (src : List (String × String))
    (k : String) :
    getAssoc (copyProps props src) k
      = if k ∈ props ∧ (getAssoc src k).isSome then getAssoc src k else none := by
  simpa [copyProps, getAssoc] using getAssoc_foldl_copy src props [] k

theorem truthyOpt_some_of_ne {s : String} (h : s ≠ "") :
    truthyOpt (some s) = true := by
  simp [truthyOpt, h]

/-! ### Transfer-data generator lemmas -/

theorem getAssoc_copiedProps_name (c : Component) :
    getAssoc (copiedProps c) "name" = getAssoc c.data "name" := by
  rw [copiedProps, getAssoc_copyProps]
  cases h : getAssoc c.data "name" <;> simp [h, schemaProperties]

theorem getAssoc_copiedProps_type (c : Component) :
    getAssoc (copiedProps c) "type" = getAssoc c.data "type" := by
  rw [copiedProps, getAssoc_copyProps]
  cases h : getAssoc c.data "type" <;> simp [h, schemaProperties]

theorem resolvedNameOf_of_declared (opts : Options) (c : Component) {n : String}
    (h1 : getAssoc c.data "name" = some n) (h2 : n ≠ "") :
    resolvedNameOf opts c
      = opts.componentNameProcessor n (componentNameOf c) (componenTypeOf c)
          (componentPathOf c) := by
  have hc : getAssoc (copiedProps c) "name" = some n :=
    (getAssoc_copiedProps_name c).trans h1
  rw [resolvedNameOf, defaultedNameProps, hc, truthyOpt_some_of_ne h2, if_pos rfl, hc]
  rfl

theorem resolvedNameOf_of_absent (opts : Options) (c : Component)
    (h : getAssoc c.data "name" = none) :
    resolvedNameOf opts c
      = opts.componentNameProcessor (componentNameOf c) (componentNameOf c)
          (componenTypeOf c) (componentPathOf c) := by
  have hc : getAssoc (copiedProps c) "name" = none :=
    (getAssoc_copiedProps_name c).trans h
  rw [resolvedNameOf, defaultedNameProps, hc]
  simp [truthyOpt, getAssoc_setAssoc_self]

theorem getAssoc_namedProps_name (opts : Options) (c : Component) :
    getAssoc (namedProps opts c) "name" = some (resolvedNameOf opts c) :=
  getAssoc_setAssoc_self _ _ _

theorem getAssoc_genProps_name (opts : Options) (c : Component) :
    getAssoc (genProps opts c) "name" = some (resolvedNameOf opts c) := by
  rw [genProps]
  by_cases h : truthyOpt (getAssoc (namedProps opts c) "type") = true
  · rw [if_pos h]; exact getAssoc_namedProps_name opts c
  · rw [if_neg h]
    cases hm : getAssoc opts.mapping (componenTypeOf c)
    · exact getAssoc_namedProps_name opts c
    · rw [getAssoc_setAssoc_ne _ _ (by decide)]
      exact getAssoc_namedProps_name opts c

theorem getAssoc_namedProps_type (opts : Options) (c : Component) :
    getAssoc (namedProps opts c) "type" = getAssoc c.data "type" := by
  rw [namedProps, getAssoc_setAssoc_ne _ _ (by decide), defaultedNameProps]
  by_cases h : truthyOpt (getAssoc (copiedProps c) "name") = true
  · rw [if_pos h]; exact getAssoc_copiedProps_type c
  · rw [if_neg h, getAssoc_setAssoc_ne _ _ (by decide)]
    exact getAssoc_copiedProps_type c

theorem getAssoc_genProps_type_declared (opts : Options) (c : Component)
    {t : String} (h1 : getAssoc c.data "type" = some t) (h2 : t ≠ "") :
    getAssoc (genProps opts c) "type" = some t := by
  have hn : getAssoc (namedProps opts c) "type" = some t :=
    (getAssoc_namedProps_type opts c).trans h1
  rw [genProps, hn, truthyOpt_some_of_ne h2, if_pos rfl]
  exact hn

theorem getAssoc_genProps_type_absent (opts : Options) (c : Component)
    (h : getAssoc c.data "type" = none) :
    getAssoc (genProps opts c) "type" = getAssoc opts.mapping (componenTypeOf c) := by
  have hn : getAssoc (namedProps opts c) "type" = none :=
    (getAssoc_namedProps_type opts c).trans h
  rw [genProps, hn]
  cases hm : getAssoc opts.mapping (componenTypeOf c) with
  | none => simpa [truthyOpt, hm] using hn
  | some t => simp [truthyOpt, hm, getAssoc_setAssoc_self]

theorem getAssoc_genProps_other (opts : Options) (c : Component) {k : String}
    (h1 : k ≠ "name") (h2 : k ≠ "type") :
    getAssoc (genProps opts c) k = getAssoc (copiedProps c) k := by
  have hd : getAssoc (defaultedNameProps c) k = getAssoc (copiedProps c) k := by
    rw [defaultedNameProps]
    split
    · rfl
    · exact getAssoc_setAssoc_ne _ _ (Ne.symm h1)
  have hn : getAssoc (namedProps opts c) k = getAssoc (copiedProps c) k := by
    rw [namedProps, getAssoc_setAssoc_ne _ _ (Ne.symm h1), hd]
  rw [genProps]
  split
  · exact hn
  · cases hm : getAssoc opts.mapping (componenTypeOf c) with
    | none => simpa [hm] using hn
    | some t =>
      simp only [hm]
      rw [getAssoc_setAssoc_ne _ _ (Ne.symm h2), hn]

/-! ### Claim theorems -/

/-- C1: for every component (whose resolver `directory` owns its metadata
file) and every qualifying (`main = true`) example, the transfer data
contains exactly one variation, keyed by the example's filepath relative to
the component directory with separators normalized to `/`; the variation's
name is the resolved component name followed by `" -- "` and the example
stem, and its single html asset path is the component directory relative to
the root directory joined with `<stem>.html`, normalized to forward
slashes.  Examples with `main` not true produce no variation. -/
theorem transferData_variations_spec (opts : Options)
    (examplesOf : Path → List Example) (c : Component)
    (hdir : c.directory = dirname c.metaFile)
    (hkeys : ((((examplesOf c.directory).filter fun e => e.main)).map
      (variationKey c)).Nodup) :
    (generateComponentTransferData opts examplesOf c).variations
      = ((examplesOf c.directory).filter fun e => e.main).map fun e =>
          (variationKey c e,
           { name :=
               ((getAssoc (generateComponentTransferData opts examplesOf c).props
                   "name").getD "")
                 ++ " -- " ++ stem (basenameP e.filepath)
             htmlAssets :=
               [normalizeSlashes (renderPath
                 (relativeSegs opts.rootDirectory c.directory
                   ++ [stem (basenameP e.filepath) ++ ".html"]))] }) := by
  have hname :
      (getAssoc (generateComponentTransferData opts examplesOf c).props
        "name").getD "" = resolvedNameOf opts c := by
    rw [show (generateComponentTransferData opts examplesOf c).props
      = genProps opts c from rfl, getAssoc_genProps_name]
    rfl
  rw [hname]
  show genVariations opts examplesOf c = _
  rw [genVariations, foldl_setAssoc_eq_map _ _ _ _ (by simpa using hkeys),
    List.nil_append]
  congr 1
  funext e
  simp [generateVariation, componentPathOf, ← hdir]

/-- C3: the transfer data's scalar properties are a whitelist copy - a
property not declared in the schema is absent from the transfer data, and
a schema-declared property other than the specially handled `name`/`type`
is present exactly when (and with the value that) the raw data defines
it. -/
theorem transferData_props_whitelist (opts : Options)
    (examplesOf : Path → List Example) (c : Component) (k : String) :
    (k ∉ schemaProperties →
      getAssoc (generateComponentTransferData opts examplesOf c).props k = none) ∧
    (k ∈ schemaProperties → k ≠ "name" → k ≠ "type" →
      getAssoc (generateComponentTransferData opts examplesOf c).props k
        = getAssoc c.data k) := by
  constructor
  · intro hk
    have h1 : k ≠ "name" := fun h => hk (h ▸ (by decide))
    have h2 : k ≠ "type" := fun h => hk (h ▸ (by decide))
    rw [show (generateComponentTransferData opts examplesOf c).props
      = genProps opts c from rfl, getAssoc_genProps_other opts c h1 h2,
      copiedProps, getAssoc_copyProps]
    simp [hk]
  · intro hk h1 h2
    rw [show (generateComponentTransferData opts examplesOf c).props
      = genProps opts c from rfl, getAssoc_genProps_other opts c h1 h2,
      copiedProps, getAssoc_copyProps]
    cases hv : getAssoc c.data k <;> simp [hk, hv]

/-- C4: the transfer data's `name` is the name processor applied to the
declared (non-empty) name when present and to the component's folder name
otherwise; its `type` is the declared (non-empty) type when present and
the mapping value keyed by the folder two levels above the metadata file
otherwise. -/
theorem transferData_name_type_defaulting (opts : Options)
    (examplesOf : Path → List Example) (c : Component) :
    (getAssoc c.data "name" = none →
      getAssoc (generateComponentTransferData opts examplesOf c).props "name"
        = some (opts.componentNameProcessor (componentNameOf c)
            (componentNameOf c) (componenTypeOf c) (componentPathOf c))) ∧
    (∀ n, getAssoc c.data "name" = some n → n ≠ "" →
      getAssoc (generateComponentTransferData opts examplesOf c).props "name"
        = some (opts.componentNameProcessor n (componentNameOf c)
            (componenTypeOf c) (componentPathOf c))) ∧
    (getAssoc c.data "type" = none →
      getAssoc (generateComponentTransferData opts examplesOf c).props "type"
        = getAssoc opts.mapping (componenTypeOf c)) ∧
    (∀ t, getAssoc c.data "type" = some t → t ≠ "" →
      getAssoc (generateComponentTransferData opts examplesOf c).props "type"
        = some t) := by
  refine ⟨fun h => ?_, fun n h1 h2 => ?_, fun h => ?_, fun t h1 h2 => ?_⟩
  · rw [show (generateComponentTransferData opts examplesOf c).props
      = genProps opts c from rfl, getAssoc_genProps_name,
      resolvedNameOf_of_absent opts c h]
  · rw [show (generateComponentTransferData opts examplesOf c).props
      = genProps opts c from rfl, getAssoc_genProps_name,
      resolvedNameOf_of_declared opts c h1 h2]
  · exact getAssoc_genProps_type_absent opts c h
  · exact getAssoc_genProps_type_declared opts c h1 h2

/-- C10: when the raw data declares a (non-empty) name, the configured
name processor is still applied to it, and the processed name is the one
embedded in every variation's name. -/
theorem nameProcessor_applied_to_declared_name (opts : Options)
    (examplesOf : Path → List Example) (c : Component) (n : String)
    (h1 : getAssoc c.data "name" = some n) (h2 : n ≠ "") :
    (getAssoc (generateComponentTransferData opts examplesOf c).props "name"
      = some (opts.componentNameProcessor n (componentNameOf c)
          (componenTypeOf c) (componentPathOf c))) ∧
    (∀ kv ∈ (generateComponentTransferData opts examplesOf c).variations,
      ∃ e ∈ examplesOf c.directory, e.main = true ∧
        kv.2.name
          = opts.componentNameProcessor n (componentNameOf c)
              (componenTypeOf c) (componentPathOf c)
            ++ " -- " ++ stem (basenameP e.filepath)) := by
  have hres := resolvedNameOf_of_declared opts c h1 h2
  constructor
  · rw [show (generateComponentTransferData opts examplesOf c).props
      = genProps opts c from rfl, getAssoc_genProps_name, hres]
  · intro kv hkv
    have hkv' : kv ∈ genVariations opts examplesOf c := hkv
    rw [genVariations] at hkv'
    rcases mem_foldl_setAssoc _ _ _ _ _ hkv' with h | ⟨e, he, rfl⟩
    · simp at h
    · rcases List.mem_filter.mp he with ⟨hmem, hmain⟩
      exact ⟨e, hmem, hmain, by simp [generateVariation, hres]⟩

/-- C1 witness: the `atoms/button` fixture yields exactly the variation
`'_example/example.hbs' -> 'button -- example' / 'atoms/button/example.html'`
of the repository's test suite. -/
theorem transferData_variations_spec_witness :
    (generateComponentTransferData exOpts exExamplesOf exButton).variations
      = [("_example/example.hbs",
          { name := "button -- example"
            htmlAssets := ["atoms/button/example.html"] })] :=
  (transferData_variations_spec exOpts exExamplesOf exButton (by decide)
      (by decide)).trans (by decide)

/-- C3 witness: the undeclared `foo` property of the fixture's raw data is
dropped, while the schema-declared `stability` is copied through. -/
theorem transferData_props_whitelist_witness :
    getAssoc (generateComponentTransferData exOpts exExamplesOf exButtonExtra).props
        "foo" = none ∧
    getAssoc (generateComponentTransferData exOpts exExamplesOf exButtonExtra).props
        "stability" = some "stable" :=
  ⟨(transferData_props_whitelist exOpts exExamplesOf exButtonExtra "foo").1
      (by decide),
   ((transferData_props_whitelist exOpts exExamplesOf exButtonExtra "stability").2
      (by decide) (by decide) (by decide)).trans (by decide)⟩

/-- C4 witness: with no declared name/type the fixture defaults to the
processed folder name `button` and the mapped type `atom`; with declared
`btn`/`molecule` both are kept (the name still processed). -/
theorem transferData_name_type_defaulting_witness :
    getAssoc (generateComponentTransferData exOpts exExamplesOf exButton).props
        "name" = some "button" ∧
    getAssoc (generateComponentTransferData exOpts exExamplesOf exButton).props
        "type" = some "atom" ∧
    getAssoc (generateComponentTransferData exOpts exExamplesOf exButtonDeclared).props
        "name" = some "btn" ∧
    getAssoc (generateComponentTransferData exOpts exExamplesOf exButtonDeclared).props
        "type" = some "molecule" :=
  ⟨((transferData_name_type_defaulting exOpts exExamplesOf exButton).1
      (by decide)).trans (by decide),
   ((transferData_name_type_defaulting exOpts exExamplesOf exButton).2.2.1
      (by decide)).trans (by decide),
   ((transferData_name_type_defaulting exOpts exExamplesOf exButtonDeclared).2.1
      "btn" (by decide) (by decide)).trans (by decide),
   (transferData_name_type_defaulting exOpts exExamplesOf exButtonDeclared).2.2.2
      "molecule" (by decide) (by decide)⟩

/-- C10 witness: the declared name `btn` is processed (identity processor)
and embedded in the fixture's single variation name. -/
theorem nameProcessor_applied_to_declared_name_witness :
    getAssoc (generateComponentTransferData exOpts exExamplesOf exButtonDeclared).props
        "name" = some "btn" ∧
    ∀ kv ∈ (generateComponentTransferData exOpts exExamplesOf exButtonDeclared).variations,
      ∃ e ∈ exExamplesOf exButtonDeclared.directory, e.main = true ∧
        kv.2.name = "btn" ++ " -- " ++ stem (basenameP e.filepath) :=
  ⟨((nameProcessor_applied_to_declared_name exOpts exExamplesOf exButtonDeclared
      "btn" (by decide) (by decide)).1).trans (by decide),
   fun kv hkv => by
    rcases (nameProcessor_applied_to_declared_name exOpts exExamplesOf exButtonDeclared
        "btn" (by decide) (by decide)).2 kv hkv with ⟨e, he, hm, hn⟩
    exact ⟨e, he, hm, hn.trans rfl⟩⟩

/-! ### Validation lemmas and claims -/

theorem folderErrorMsg_ne_emptyCatalogMsg (f : String) :
    folderErrorMsg f ≠ emptyCatalogMsg := by
  intro h
  have h2 : (folderErrorMsg f).data.head? = emptyCatalogMsg.data.head? := by
    rw [h]
  have h3 : (folderErrorMsg f).data.head? = some 'F' := by
    unfold folderErrorMsg
    rw [String.data_append, String.data_append]
    rfl
  rw [h3] at h2
  simp [emptyCatalogMsg] at h2

theorem validateComponent_error {opts : Options}
    {sv : Component → Except String Unit} {c : Component} {m : String}
    (h : validateComponent opts sv c = Except.error m) :
    sv c = Except.error m ∨ m = folderErrorMsg (typeFolderNameOf c) := by
  unfold validateComponent at h
  split at h
  next e heq =>
    injection h with h'
    subst h'
    left
    exact heq
  next u heq =>
    split at h
    · exact absurd h (by simp)
    · injection h with h'
      right
      exact h'.symm

theorem someInvalid_error {opts : Options} {sv : Component → Except String Unit} :
    ∀ {components : List Component} {m : String},
      someInvalid opts sv components = Except.error m →
      (∃ c ∈ components, sv c = Except.error m) ∨
        (∃ c ∈ components, m = folderErrorMsg (typeFolderNameOf c)) := by
  intro components
  induction components with
  | nil => intro m h; exact absurd h (by simp [someInvalid])
  | cons c rest ih =>
    intro m h
    unfold someInvalid at h
    split at h
    next e heq =>
      injection h with h'
      subst h'
      rcases validateComponent_error heq with h1 | h1
      · exact Or.inl ⟨c, List.mem_cons_self _ _, h1⟩
      · exact Or.inr ⟨c, List.mem_cons_self _ _, h1⟩
    next v heq =>
      split at h
      · exact absurd h (by simp)
      · rcases ih h with ⟨c', hc', h1⟩ | ⟨c', hc', h1⟩
        · exact Or.inl ⟨c', List.mem_cons_of_mem _ hc', h1⟩
        · exact Or.inr ⟨c', List.mem_cons_of_mem _ hc', h1⟩

/-- C5: on an empty catalog `validateComponents()` rejects with exactly
`Component validation failed - no components found`; on a non-empty
catalog (whose external schema validator does not itself produce that
exact message) it never raises this error. -/
theorem validateComponents_empty_catalog (opts : Options)
    (sv : Component → Except String Unit) (components : List Component)
    (hsv : ∀ c m, sv c = Except.error m → m ≠ emptyCatalogMsg) :
    (components = [] →
      validateComponents opts sv components = Except.error emptyCatalogMsg) ∧
    (components ≠ [] →
      validateComponents opts sv components ≠ Except.error emptyCatalogMsg) := by
  constructor
  · intro h
    subst h
    rfl
  · intro hne
    rw [validateComponents, if_neg (by simpa using hne)]
    intro hcontra
    cases hsi : someInvalid opts sv components with
    | ok b =>
      rw [hsi] at hcontra
      exact absurd hcontra (by simp [Except.map])
    | error m =>
      rw [hsi] at hcontra
      have hm : m = emptyCatalogMsg := by
        simpa [Except.map] using hcontra
      subst hm
      rcases someInvalid_error hsi with ⟨c, _, hc⟩ | ⟨c, _, hc⟩
      · exact hsv c _ hc rfl
      · exact folderErrorMsg_ne_emptyCatalogMsg _ hc.symm

/-- C5 witness: the empty fixture catalog rejects with the exact message,
while the one-component fixture catalog does not. -/
theorem validateComponents_empty_catalog_witness :
    validateComponents exOpts exEnv.schemaValidate []
        = Except.error emptyCatalogMsg ∧
    validateComponents exOpts exEnv.schemaValidate [exButton]
        ≠ Except.error emptyCatalogMsg :=
  have hsv : ∀ c m, exEnv.schemaValidate c = Except.error m →
      m ≠ emptyCatalogMsg := fun c m h => by
    exact absurd h (by simp [exEnv])
  ⟨(validateComponents_empty_catalog exOpts exEnv.schemaValidate [] hsv).1 rfl,
   (validateComponents_empty_catalog exOpts exEnv.schemaValidate [exButton] hsv).2
     (by simp)⟩

/-- C6: for a component that passes schema validation, `_validateComponent`
fails with `Folder name "<folder>" is not in the mapping.` exactly when its
type folder has no (non-empty) mapping entry, and succeeds when the mapping
has a non-empty entry for it. -/
theorem validateComponent_mapping_check (opts : Options)
    (sv : Component → Except String Unit) (c : Component)
    (hsv : sv c = Except.ok ()) :
    (getAssoc opts.mapping (typeFolderNameOf c) = none →
      validateComponent opts sv c
        = Except.error (folderErrorMsg (typeFolderNameOf c))) ∧
    (∀ v, getAssoc opts.mapping (typeFolderNameOf c) = some v → v ≠ "" →
      validateComponent opts sv c = Except.ok true) := by
  constructor
  · intro hmap
    unfold validateComponent
    rw [hsv, hmap]
    rfl
  · intro v hmap hv
    unfold validateComponent
    rw [hsv, hmap, if_pos (truthyOpt_some_of_ne hv)]

/-- C6 witness: with an empty mapping the `atoms/button` fixture fails
naming the `atoms` folder; with the `atoms -> atom` mapping it passes. -/
theorem validateComponent_mapping_check_witness :
    validateComponent exOptsNoMapping exEnv.schemaValidate exButton
        = Except.error (folderErrorMsg (typeFolderNameOf exButton)) ∧
    validateComponent exOpts exEnv.schemaValidate exButton = Except.ok true :=
  ⟨(validateComponent_mapping_check exOptsNoMapping exEnv.schemaValidate exButton
      rfl).1 (by decide),
   (validateComponent_mapping_check exOpts exEnv.schemaValidate exButton rfl).2
     "atom" (by decide) (by decide)⟩

/-! ### Build and deploy claims -/

/-- C7: whenever compiling (or invoking the returned render function of) a
template raises, `_compileExample` re-raises that error with its message
rewritten to the quoted absolute source path, a space, and the original
message - it is never swallowed into a success. -/
theorem compileExample_error_message (opts : Options) (env : Env)
    (templateSrc : Path) (m : String)
    (h : runCompile opts (env.fileContents templateSrc) templateSrc
      = Except.error m) :
    compileExampleResult opts env templateSrc
      = Except.error ("\"" ++ renderPath templateSrc ++ "\" " ++ m) := by
  unfold compileExampleResult
  rw [h]

/-- C7 witness: the always-throwing fixture compiler turns into the test
suite's `"<template path>" Compile error` message. -/
theorem compileExample_error_message_witness :
    runCompile exOptsFailCompiler
        (exEnv.fileContents ["root", "atoms", "button", "_example", "example.hbs"])
        ["root", "atoms", "button", "_example", "example.hbs"]
      = Except.error "Compile error" ∧
    compileExampleResult exOptsFailCompiler exEnv
        ["root", "atoms", "button", "_example", "example.hbs"]
      = Except.error "\"root/atoms/button/_example/example.hbs\" Compile error" :=
  ⟨rfl,
   (compileExample_error_message exOptsFailCompiler exEnv
      ["root", "atoms", "button", "_example", "example.hbs"] "Compile error"
      rfl).trans (congrArg Except.error (by decide))⟩

/-- C8: with the asset folder unset (and a token configured), the asset
sync stage resolves to `[]` for every possible registry behavior (the
registry's `syncAssets` is never consulted), and a successful `deploy()`
returns that empty list as `assets` and the pattern-sync result as
`components`. -/
theorem deploy_without_asset_folder (opts : Options) (env : Env) (b : Bool)
    (hAsset : opts.assetFolder = "")
    (hTok : ¬opts.frontifyAccessToken = "")
    (hval : validateComponents opts env.schemaValidate env.components
      = Except.ok b)
    (hbuild : buildComponentsResult opts env = Except.ok ()) :
    syncAssetsFn opts env.registryAssets = Except.ok [] ∧
    deploy opts env
      = Except.ok
          { assets := []
            components := env.registryPatterns opts.targetDir ["*/*/pattern.json"] } := by
  have hsa : syncAssetsFn opts env.registryAssets = Except.ok [] := by
    unfold syncAssetsFn
    rw [if_neg hTok, if_pos hAsset]
  refine ⟨hsa, ?_⟩
  unfold deploy
  rw [hval, hbuild]
  simp only [Bind.bind, Except.bind, hsa]
  unfold syncComponentsFn
  rw [if_neg hTok]
  rfl

/-- C8 witness: the fixture deploy (asset folder unset) resolves to zero
assets and the registry's pattern-sync result. -/
theorem deploy_without_asset_folder_witness :
    deploy exOpts exEnv
      = Except.ok { assets := [], components := ["buttonPattern"] } :=
  ((deploy_without_asset_folder exOpts exEnv true rfl (by decide) rfl
    rfl).2).trans (congrArg Except.ok (by decide))

/-! ### Interleaving lemmas (the orderings `Promise.all` admits) -/

theorem mem_of_mem_set {α : Type} :
    ∀ {l : List α} {i : Nat} {x a : α}, a ∈ l.set i x → a ∈ l ∨ a = x := by
  intro l
  induction l with
  | nil => intro i x a h; simp at h
  | cons b rest ih =>
    intro i x a h
    cases i with
    | zero =>
      rcases List.mem_cons.mp h with h | h
      · right; exact h
      · left; exact List.mem_cons_of_mem _ h
    | succ i =>
      rcases List.mem_cons.mp h with h | h
      · left; exact h ▸ List.mem_cons_self _ _
      · rcases ih h with h' | h'
        · left; exact List.mem_cons_of_mem _ h'
        · right; exact h'

theorem mem_of_interleaves {ls : List (List FsOp)} {t : List FsOp}
    (h : Interleaves ls t) : ∀ op ∈ t, ∃ l ∈ ls, op ∈ l := by
  induction h with
  | done ls h => intro op hop; simp at hop
  | step ls i op tl rest hget hrest ih =>
    intro x hx
    rcases List.mem_cons.mp hx with hx | hx
    · refine ⟨op :: tl, List.get?_mem hget, ?_⟩
      rw [hx]
      exact List.mem_cons_self _ _
    · rcases ih x hx with ⟨l, hl, hxl⟩
      rcases mem_of_mem_set hl with hl' | hl'
      · exact ⟨l, hl', hxl⟩
      · rw [hl'] at hxl
        exact ⟨op :: tl, List.get?_mem hget, List.mem_cons_of_mem _ hxl⟩

theorem interleaves_cons_nil {ls : List (List FsOp)} {t : List FsOp}
    (h : Interleaves ls t) : Interleaves ([] :: ls) t := by
  induction h with
  | done ls h =>
    refine Interleaves.done _ fun l hl => ?_
    rcases List.mem_cons.mp hl with hl | hl
    · exact hl
    · exact h l hl
  | step ls i op tl rest hget hrest ih =>
    exact Interleaves.step _ (i + 1) op tl rest (by simpa using hget) ih

theorem interleaves_flatten : ∀ ls : List (List FsOp), Interleaves ls ls.flatten := by
  intro ls
  induction ls with
  | nil => exact Interleaves.done [] (by simp)
  | cons l rest ih =>
    have key : ∀ l' : List FsOp, Interleaves (l' :: rest) (l' ++ rest.flatten) := by
      intro l'
      induction l' with
      | nil => simpa using interleaves_cons_nil ih
      | cons a l'' ihl => exact Interleaves.step _ 0 a l'' _ rfl (by simpa using ihl)
    simpa using key l

/-- C9: in every trace `_buildComponent` can produce, the `pattern.json`
write is the operation at index 1 (right after its directory's creation),
and every operation from index 2 on belongs to some variation's build -
so no variation template is read, compiled or written before the
`pattern.json` write completes. -/
theorem buildComponent_pattern_json_first (opts : Options) (env : Env)
    (c : Component) (t : List FsOp)
    (ht : BuildComponentTrace opts env c t) :
    t.get? 1
      = some (FsOp.writeFile (componentTargetDir opts c ++ ["pattern.json"])
          (serializeTransferData
            (generateComponentTransferData opts env.examplesOf c))) ∧
    ∀ j op, t.get? (j + 2) = some op →
      ∃ kv ∈ (generateComponentTransferData opts env.examplesOf c).variations,
        op ∈ variationTraceOf opts env c kv := by
  obtain ⟨u, hu, rfl⟩ := ht
  constructor
  · rfl
  · intro j op hop
    have hop' : u.get? j = some op := hop
    have hmem : op ∈ u := List.get?_mem hop'
    rcases mem_of_interleaves hu op hmem with ⟨l, hl, hopl⟩
    rcases List.mem_map.mp hl with ⟨kv, hkv, rfl⟩
    exact ⟨kv, hkv, hopl⟩

/-- C9 witness: in the fixture build's canonical trace the `pattern.json`
write sits at index 1, before the variation operations. -/
theorem buildComponent_pattern_json_first_witness :
    (buildComponentTrace exOpts exEnv exButton).get? 1
      = some (FsOp.writeFile (componentTargetDir exOpts exButton ++ ["pattern.json"])
          (serializeTransferData
            (generateComponentTransferData exOpts exEnv.examplesOf exButton))) :=
  (buildComponent_pattern_json_first exOpts exEnv exButton
    (buildComponentTrace exOpts exEnv exButton)
    ⟨(variationTraces exOpts exEnv exButton).flatten,
      interleaves_flatten _, rfl⟩).1

/-- C2 counterexample: for the concrete fixture configuration (with shared
css/js files configured), the current `buildComponents()` trace contains
no operation touching the `core-assets` package - no
`<targetDir>/core/assets/pattern.json` write, no `core/assets/css` or
`core/assets/js` directory creation, no staging copy. -/
theorem buildComponents_no_core_assets_counterexample :
    (buildComponentsTrace exOpts exEnv [exButton]).all
        (fun op => !(isCoreAssetsOp exOpts.targetDir op)) = true := by
  decide

/-- C2 amended: `buildComponents()` builds every catalog component (each
component's `pattern.json` write is in its trace) but stages no
`core-assets` package; the `core-assets` pseudo-component - css/js files
staged into `<targetDir>/core/assets/{css,js}` and a `pattern.json` with
name `core-assets`, fixed type `atom` and stability `beta` - is produced
only by the legacy revision's `_buildComponents` via `_buildBaseComponent`,
after all component builds. -/
theorem buildComponents_core_assets_split (opts : Options) (env : Env) :
    (∀ c ∈ env.components,
      FsOp.writeFile (componentTargetDir opts c ++ ["pattern.json"])
          (serializeTransferData (generateComponentTransferData opts env.examplesOf c))
        ∈ buildComponentsTrace opts env env.components) ∧
    legacyBuildComponentsTrace opts env
      = (env.components.map (legacyBuildComponentTrace opts env)).flatten
          ++ legacyBuildBaseComponentTrace opts ∧
    (legacyCoreComponent opts).name = "core-assets" ∧
    (legacyCoreComponent opts).type = "atom" ∧
    (legacyCoreComponent opts).stability = "beta" ∧
    FsOp.writeFile (coreComponentDirectory opts ++ ["pattern.json"])
        (serializeCoreComponent (legacyCoreComponent opts))
      ∈ legacyBuildBaseComponentTrace opts ∧
    (∀ f ∈ opts.cssFiles,
      FsOp.copyFile f (coreComponentDirectory opts ++ ["css", stringBasename f])
        ∈ legacyBuildBaseComponentTrace opts) ∧
    (∀ f ∈ opts.jsFiles,
      FsOp.copyFile f (coreComponentDirectory opts ++ ["js", stringBasename f])
        ∈ legacyBuildBaseComponentTrace opts) := by
  refine ⟨?_, rfl, rfl, rfl, rfl, ?_, ?_, ?_⟩
  · intro c hc
    refine List.mem_flatten.mpr
      ⟨buildComponentTrace opts env c, List.mem_map_of_mem _ hc, ?_⟩
    exact List.mem_append_left _ (by simp [buildPatternOps])
  · simp [legacyBuildBaseComponentTrace]
  · intro f hf
    have hmem : FsOp.copyFile f (coreComponentDirectory opts ++ ["css", stringBasename f])
        ∈ opts.cssFiles.map fun g =>
          FsOp.copyFile g (coreComponentDirectory opts ++ ["css", stringBasename g]) :=
      List.mem_map_of_mem _ hf
    simp only [legacyBuildBaseComponentTrace, List.mem_append]
    tauto
  · intro f hf
    have hmem : FsOp.copyFile f (coreComponentDirectory opts ++ ["js", stringBasename f])
        ∈ opts.jsFiles.map fun g =>
          FsOp.copyFile g (coreComponentDirectory opts ++ ["js", stringBasename g]) :=
      List.mem_map_of_mem _ hf
    simp only [legacyBuildBaseComponentTrace, List.mem_append]
    tauto

/-- C2 amended witness: the fixture component's `pattern.json` write is in
the current build trace, and both configured shared files are staged by the
legacy base-component build. -/
theorem buildComponents_core_assets_split_witness :
    FsOp.writeFile (componentTargetDir exOpts exButton ++ ["pattern.json"])
        (serializeTransferData
          (generateComponentTransferData exOpts exEnv.examplesOf exButton))
      ∈ buildComponentsTrace exOpts exEnv exEnv.components ∧
    FsOp.copyFile "dist/a.css"
        (coreComponentDirectory exOpts ++ ["css", stringBasename "dist/a.css"])
      ∈ legacyBuildBaseComponentTrace exOpts ∧
    FsOp.copyFile "dist/b.js"
        (coreComponentDirectory exOpts ++ ["js", stringBasename "dist/b.js"])
      ∈ legacyBuildBaseComponentTrace exOpts :=
  ⟨(buildComponents_core_assets_split exOpts exEnv).1 exButton (by decide),
   (buildComponents_core_assets_split exOpts exEnv).2.2.2.2.2.2.1 "dist/a.css"
     (by decide),
   (buildComponents_core_assets_split exOpts exEnv).2.2.2.2.2.2.2 "dist/b.js"
     (by decide)⟩

end NitroFrontifyDeployer
